import Mathlib

/-!
# Verification of the sev-tool command dispatch and measurement front-end

This file gives a shallow embedding of `src/main.cpp` of the sev-tool
repository: the repetition runner and statistics reducer
(`perform_repetitions_and_analysis`) and the `getopt_long`-driven command
dispatch loop of `main`, together with theorems checking the natural-language
specification against that embedding.

Modelling conventions:
* C++ `double` measurements and statistics are modelled by `ℚ` (exact
  arithmetic); `std::sqrt` is modelled by `Real.sqrt` on the cast value.
* C++ `int` values (status codes, repetition counts) are modelled by `ℤ`.
  All integer divisions in the source act on non-negative operands, where
  C++ truncating division and Lean's `Int` division agree.
* Fallible steps of the reduction (indexing a vector out of bounds, which is
  undefined behaviour in C++, and dividing by a zero sample size, which
  yields NaN) are modelled by `Except StatErr`.
* The external `Command` collaborator (driver/certificate operations) is out
  of scope per the spec and is modelled by an oracle environment `Env`
  supplying each run's appended measurements and status code.
* Sorting with `std::sort` under `<` on values modelled in a linear order is
  modelled by `List.insertionSort (· ≤ ·)`: any comparison sort returns the
  unique `≤`-sorted permutation of its input.
-/

/- Restore kernel-visible reducibility of the rational-number operations so
that concrete runs of the embedded code can be checked by `decide`. -/
set_option allowUnsafeReducibility true in
attribute [semireducible] Rat.add Rat.mul Rat.inv Rat.sub Rat.div

instance {ε α : Type} [DecidableEq ε] [DecidableEq α] : DecidableEq (Except ε α) :=
  fun a b =>
    match a, b with
    | .ok x, .ok y =>
      if h : x = y then .isTrue (by rw [h]) else .isFalse (by simp [h])
    | .error x, .error y =>
      if h : x = y then .isTrue (by rw [h]) else .isFalse (by simp [h])
    | .ok _, .error _ => .isFalse (by simp)
    | .error _, .ok _ => .isFalse (by simp)

/-- Failure modes of the statistics reduction: division by a zero sample
size (`mean`/`variance` on an empty sample, NaN in the C++ source) and
vector subscripts outside the sample (undefined behaviour in the source). -/
inductive StatErr : Type where
  | divideByZero
  | indexOutOfBounds
  | emptyRange
deriving DecidableEq, Repr

/-- The statistics printed at the end of `perform_repetitions_and_analysis`
(lines 186-194 of main.cpp).  The standard deviation is derived from
`variance` by `stdevOf` below. -/
structure StatsSummary : Type where
  min : ℚ
  q1 : ℚ
  median : ℚ
  q3 : ℚ
  max : ℚ
  count : ℕ
  mean : ℚ
  variance : ℚ
deriving DecidableEq, Repr

/-- `double stdev = std::sqrt(variance);` (line 161). -/
noncomputable def stdevOf (s : StatsSummary) : ℝ :=
  Real.sqrt ((s.variance : ℚ) : ℝ)

/-- `std::accumulate(measurements.begin(), measurements.end(), 0.0)`
(line 151): a left fold of `+` over the sample starting at `0`. -/
def sumList (l : List ℚ) : ℚ :=
  l.foldl (· + ·) 0

/-- The variance accumulation loop (lines 154-158): starting from `0`, add
`(val - mean) * (val - mean)` for each sample value. -/
def varSum (l : List ℚ) (mean : ℚ) : ℚ :=
  l.foldl (fun acc val => acc + (val - mean) * (val - mean)) 0

/-- `std::sort(measurements.begin(), measurements.end())` (line 163):
the ascending-sorted copy of the sample. -/
def sortedSample (l : List ℚ) : List ℚ :=
  List.insertionSort (· ≤ ·) l

/-- A guarded division, modelling that dividing by a zero sample size is the
degenerate/NaN case of the source. -/
def checkedDiv (a b : ℚ) : Except StatErr ℚ :=
  if b = 0 then .error .divideByZero else .ok (a / b)

/-- `measurements[i]` with an `int` index (lines 173-185): defined only when
`0 ≤ i < size`, otherwise undefined behaviour, modelled as an error. -/
def vecIdx (l : List ℚ) (i : Int) : Except StatErr ℚ :=
  if h : 0 ≤ i ∧ i.toNat < l.length then .ok (l.get ⟨i.toNat, h.2⟩)
  else .error .indexOutOfBounds

/-- First component of `std::minmax_element` over the (non-empty) sample:
the least element, computed by folding `min`. -/
def vecMin (l : List ℚ) : Except StatErr ℚ :=
  match l with
  | [] => .error .emptyRange
  | x :: xs => .ok (xs.foldl min x)

/-- Second component of `std::minmax_element` over the (non-empty) sample:
the greatest element, computed by folding `max`. -/
def vecMax (l : List ℚ) : Except StatErr ℚ :=
  match l with
  | [] => .error .emptyRange
  | x :: xs => .ok (xs.foldl max x)

/-- `(measurements[i] + measurements[j]) / 2` for the even-size branches. -/
def pairAvg (l : List ℚ) (i j : Int) : Except StatErr ℚ :=
  match vecIdx l i, vecIdx l j with
  | .ok a, .ok b => .ok ((a + b) / 2)
  | .error e, _ => .error e
  | _, .error e => .error e

/-- The common shape of the quartile/median selections (lines 171-185): if
`n` is even take the average of the elements at `ie1` and `ie2`, else take
the single element at `io`. -/
def qSel (l : List ℚ) (n : Int) (ie1 ie2 io : Int) : Except StatErr ℚ :=
  if n % 2 = 0 then pairAvg l ie1 ie2 else vecIdx l io

/-- The statistics block of `perform_repetitions_and_analysis`
(lines 149-194 of main.cpp), over an arbitrary sample, in source order:
sum and mean, population variance, sorted copy, min/max, quartiles
`Q1`/`Q3` with the source's index arithmetic, and median; the first failing
step's error propagates. -/
def computeStats (measurements : List ℚ) : Except StatErr StatsSummary :=
  Except.bind (checkedDiv (sumList measurements) ((measurements.length : ℚ))) (fun mean =>
  Except.bind (checkedDiv (varSum measurements mean) ((measurements.length : ℚ))) (fun variance =>
  Except.bind (vecMin (sortedSample measurements)) (fun mn =>
  Except.bind (vecMax (sortedSample measurements)) (fun mx =>
  Except.bind (qSel (sortedSample measurements) ((measurements.length : Int))
      ((measurements.length : Int) / 4 - 1) ((measurements.length : Int) / 4)
      ((measurements.length : Int) / 4)) (fun q1 =>
  Except.bind (qSel (sortedSample measurements) ((measurements.length : Int))
      (3 * (measurements.length : Int) / 4 - 1) (3 * (measurements.length : Int) / 4)
      (3 * (measurements.length : Int) / 4)) (fun q3 =>
  Except.bind (qSel (sortedSample measurements) ((measurements.length : Int))
      ((measurements.length : Int) / 2 - 1) ((measurements.length : Int) / 2)
      ((measurements.length : Int) / 2)) (fun median =>
  Except.ok ⟨mn, q1, median, q3, mx, measurements.length, mean, variance⟩)))))))

/-!
## Spec-side statistics formulas

The following definitions transcribe the specification's *words* for the
statistics reducer (spec §4.4), to be compared with `computeStats`, which is
translated from the source.  Indices are 0-based over the ascending-sorted
copy; `getD _ 0` is total indexing (the refinement theorems only relate the
two sides where the source-side reduction is defined, so the default is
never consulted there).
-/

/-- Spec: "mean = arithmetic average of all values". -/
def specMean (s : List ℚ) : ℚ := s.sum / (s.length : ℚ)

/-- Spec: "variance = population variance (divide by `n`, not `n-1`)". -/
def specVariance (s : List ℚ) : ℚ :=
  ((s.map (fun v => (v - specMean s) * (v - specMean s))).sum) / (s.length : ℚ)

/-- Spec: "median: average of the two middle elements if `n` is even, else
the single middle element" — indices `n/2 - 1`, `n/2` resp. `n/2`. -/
def specMedian (s : List ℚ) : ℚ :=
  let l := sortedSample s
  let n := s.length
  if n % 2 = 0 then (l.getD (n / 2 - 1) 0 + l.getD (n / 2) 0) / 2
  else l.getD (n / 2) 0

/-- Spec: "if `n` is even, Q1 = average of elements at indices `n/4 - 1` and
`n/4` (0-based, sorted ascending) ... If `n` is odd, Q1 = element at index
`n/4`". -/
def specQ1 (s : List ℚ) : ℚ :=
  let l := sortedSample s
  let n := s.length
  if n % 2 = 0 then (l.getD (n / 4 - 1) 0 + l.getD (n / 4) 0) / 2
  else l.getD (n / 4) 0

/-- Spec: "Q3 = average of elements at `3n/4 - 1` and `3n/4`" for even `n`,
"element at index `3n/4`" for odd `n`. -/
def specQ3 (s : List ℚ) : ℚ :=
  let l := sortedSample s
  let n := s.length
  if n % 2 = 0 then (l.getD (3 * n / 4 - 1) 0 + l.getD (3 * n / 4) 0) / 2
  else l.getD (3 * n / 4) 0

def sample4 : List ℚ := [10, 20, 30, 40]

def stats4 : StatsSummary := ⟨10, 15, 25, 35, 40, 4, 25, 125⟩

def sample5 : List ℚ := [1, 2, 3, 4, 5]

def stats5 : StatsSummary := ⟨1, 2, 3, 4, 5, 5, 3, 2⟩

/-!
## The repetition runner

`perform_repetitions_and_analysis` (lines 124-196 of main.cpp) runs the
selected operation up to `repetitions` times.  One run is modelled as a pair
`(delta, status)`: the measurements the operation appends to the shared
vector, and its return status.  `runs i` is the behaviour of the `i`-th run
(0-based); the loop breaks at the first non-zero status, printing the
failure line, and then the statistics block executes unconditionally.
-/

/-- Printed output of the embedded tool.  `printf`/`cout` of fixed or
formatted text is `text`; the `cout` block printing the statistics is
abstracted as a `statsReport` event carrying the reduction's outcome. -/
inductive OutEvent : Type where
  | text (s : String)
  | statsReport (r : Except StatErr StatsSummary)
deriving DecidableEq, Repr

/-- The loop of lines 131-147: `cmd_ret` starts at 0; each iteration runs
the operation, appends its measurements, and breaks on non-zero status. -/
def repRunAux (runs : ℕ → List ℚ × Int) : ℕ → ℕ → List ℚ → Int → List ℚ × Int
  | 0, _, acc, ret => (acc, ret)
  | fuel + 1, i, acc, _ =>
    let r := runs i
    if r.2 ≠ 0 then (acc ++ r.1, r.2) else repRunAux runs fuel (i + 1) (acc ++ r.1) r.2

/-- The repetition loop with `reps` requested iterations, starting from an
empty sample and `cmd_ret = 0`. -/
def repRun (runs : ℕ → List ℚ × Int) (reps : ℕ) : List ℚ × Int :=
  repRunAux runs reps 0 [] 0

def notSupportedLine : String :=
  "\nCommand not supported/recognized. Possibly bad formatting\n"

/-- Two's-complement view of an `int` argument of `printf("%x")`. -/
def asUInt32 (v : Int) : ℕ := (v % ((2 : Int) ^ 32)).toNat

def hexDigitChar (n : ℕ) : Char :=
  if n < 10 then Char.ofNat (48 + n) else Char.ofNat (87 + n)

def natHexAux : ℕ → ℕ → List Char
  | 0, n => [hexDigitChar (n % 16)]
  | fuel + 1, n =>
    if n < 16 then [hexDigitChar n] else natHexAux fuel (n / 16) ++ [hexDigitChar (n % 16)]

def natHex (n : ℕ) : List Char := natHexAux n n

/-- `printf("%02x", v)`: lowercase hexadecimal, zero-padded to width 2. -/
def hex02 (v : Int) : String :=
  let ds := natHex (asUInt32 v)
  String.mk (if ds.length < 2 then List.replicate (2 - ds.length) '0' ++ ds else ds)

def unsuccessfulLine (ret : Int) : String :=
  "\nCommand Unsuccessful: 0x" ++ hex02 ret ++ "\n"

/-- The failure message printed inside the repetition loop (lines 137-144). -/
def failLine (ret : Int) : String :=
  if ret = 0xFFFF then notSupportedLine else unsuccessfulLine ret

/-- `perform_repetitions_and_analysis` (lines 124-196): run the loop, then
unconditionally compute and print the statistics; the returned value is the
final `cmd_ret`.  Result: `((sample, cmd_ret), printed output)`. -/
def perform_repetitions_and_analysis (runs : ℕ → List ℚ × Int) (repetitions : Int) :
    (List ℚ × Int) × List OutEvent :=
  let r := repRun runs repetitions.toNat
  (r, (if r.2 ≠ 0 then [.text (failLine r.2)] else []) ++
    [.statsReport (computeStats r.1)])

/-- Concrete runs for the C1 witness: run `j` appends the single measurement
`j` and fails with status 9 on the third run (`j = 2`). -/
def witnessRuns : ℕ → List ℚ × Int :=
  fun j => ([(j : ℚ)], if j = 2 then 9 else 0)

/-!
## The command dispatch loop of `main`

`main` (lines 197-491) parses the token stream with `getopt_long` over the
`long_options` table and a `"hio:r:"` short-option string, dispatching each
recognized option as it is encountered, and prints a final classification of
the surviving `cmd_ret`.  The external `Command`/`Tests` collaborators are
an oracle (`Env`); `getopt_long` itself is C-library code outside the
repository and is modelled with standard GNU semantics for the token forms
the tool documents: `--name`, `--name=value`, a `required_argument` value
taken from the next token, `--` ending the scan, the short options
`-h -i -o -r` (option clustering and long-option abbreviation are not
modelled), and non-option tokens being permuted behind the options (the tool
ignores leftovers, so they are skipped).  The source rewinds `optind` after
a `required_argument` command and checks `argc - optind` for exact arity, so
an operation's positional arguments are the whole remainder of `argv`.
-/

/-- One record per `cmd_ret` assignment of `main`'s switch: which operation
ran, with the process-wide modifiers in effect at that moment, and the
status it returned. -/
structure ExecRecord : Type where
  name : String
  folder : String
  verbose : Int
  reps : Int
  status : Int
deriving DecidableEq, Repr

/-- The mutable state of `main`'s parsing loop: `output_folder` (line 201),
the file-scope `verbose_flag` and `repetitions` globals (lines 80-81),
`cmd_ret` (line 203, initially `0xFFFF`), plus the bookkeeping `execCount`
(how many operations have executed, indexing the oracle) and `trace`. -/
structure ToolState : Type where
  output_folder : String
  verbose_flag : Int
  repetitions : Int
  cmd_ret : Int
  execCount : ℕ
  trace : List ExecRecord
deriving DecidableEq, Repr

def initState : ToolState := ⟨"./", 0, 1, 0xFFFF, 0, []⟩

/-- Oracle for the out-of-scope collaborators: per-invocation, per-run
measurements and status of a repeatable operation, the status of a
single-shot operation, and the output of the folder-existence shell
round-trip (`none` models `execute_system_command` failing). -/
structure Env : Type where
  runStatus : ℕ → ℕ → Int
  runDelta : ℕ → ℕ → List ℚ
  singleStatus : ℕ → Int
  shellCheck : String → Option String

/-- Runs of a repeatable operation whose lambda passes the measurement
vector through to the `Command` (e.g. `factory_reset`). -/
def runsOf (env : Env) (k : ℕ) : ℕ → List ℚ × Int :=
  fun i => (env.runDelta k i, env.runStatus k i)

/-- Runs of `pek_cert_import` (lines 307-310): its lambda never passes the
measurement vector to the `Command`, so no run appends a measurement. -/
def runsNoMeas (env : Env) (k : ℕ) : ℕ → List ℚ × Int :=
  fun i => ([], env.runStatus k i)

def afterExec (st : ToolState) (name : String) (status : Int) : ToolState :=
  { st with
    cmd_ret := status
    execCount := st.execCount + 1
    trace := st.trace ++ [⟨name, st.output_folder, st.verbose_flag, st.repetitions, status⟩] }

/-- Outcome of processing one option: continue with a new state after
additionally consuming `consumed` following tokens, return from `main`
early (`stop`, with C++ `return false` ≡ exit code 0), or end the scan
(`finish`, `getopt_long` returning -1 on `--`). -/
inductive StepResult : Type where
  | cont (st : ToolState) (consumed : ℕ) (out : List OutEvent)
  | stop (out : List OutEvent) (exit : Int)
  | finish

inductive OptAction : Type where
  | setFlag (v : Int)
  | cmd (c : Char)
deriving DecidableEq, Repr

structure LongOpt : Type where
  name : String
  requiresArg : Bool
  action : OptAction
deriving DecidableEq, Repr

/-- The `long_options` table (lines 83-122): `verbose`/`brief` set
`verbose_flag` via the flag pointer; the rest return their `val` character. -/
def long_options : List LongOpt :=
  [⟨"verbose", false, .setFlag 1⟩,
   ⟨"brief", false, .setFlag 0⟩,
   ⟨"factory_reset", false, .cmd 'a'⟩,
   ⟨"platform_status", false, .cmd 'b'⟩,
   ⟨"pek_gen", false, .cmd 'c'⟩,
   ⟨"pek_csr", false, .cmd 'd'⟩,
   ⟨"pdh_gen", false, .cmd 'e'⟩,
   ⟨"pdh_cert_export", false, .cmd 'f'⟩,
   ⟨"pek_cert_import", true, .cmd 'g'⟩,
   ⟨"get_id", false, .cmd 'j'⟩,
   ⟨"set_self_owned", false, .cmd 'k'⟩,
   ⟨"set_externally_owned", true, .cmd 'l'⟩,
   ⟨"generate_cek_ask", false, .cmd 'm'⟩,
   ⟨"export_cert_chain", false, .cmd 'p'⟩,
   ⟨"export_cert_chain_vcek", false, .cmd 'q'⟩,
   ⟨"repetitions", true, .cmd 'r'⟩,
   ⟨"sign_pek_csr", true, .cmd 's'⟩,
   ⟨"get_ask_ark", false, .cmd 'n'⟩,
   ⟨"calc_measurement", true, .cmd 't'⟩,
   ⟨"validate_cert_chain", false, .cmd 'u'⟩,
   ⟨"generate_launch_blob", true, .cmd 'v'⟩,
   ⟨"package_secret", false, .cmd 'w'⟩,
   ⟨"validate_attestation", false, .cmd 'x'⟩,
   ⟨"validate_guest_report", false, .cmd 'y'⟩,
   ⟨"validate_cert_chain_vcek", false, .cmd 'z'⟩,
   ⟨"test_all", false, .cmd 'T'⟩,
   ⟨"help", false, .cmd 'H'⟩,
   ⟨"sys_info", false, .cmd 'I'⟩,
   ⟨"ofolder", true, .cmd 'O'⟩]

def lookupLongOpt (name : String) : Option LongOpt :=
  long_options.find? (fun o => o.name == name)

def isDigitChar (c : Char) : Bool := 48 ≤ c.toNat && c.toNat ≤ 57

def skipSpaces : List Char → List Char
  | [] => []
  | c :: cs =>
    if c = ' ' ∨ c = '\t' ∨ c = '\n' ∨ c.toNat = 11 ∨ c.toNat = 12 ∨ c.toNat = 13 then
      skipSpaces cs
    else c :: cs

def digitsVal : List Char → Int → Int
  | [], acc => acc
  | c :: cs, acc =>
    if isDigitChar c then digitsVal cs (acc * 10 + ((c.toNat - 48 : ℕ) : Int)) else acc

/-- `atoi(optarg)` (line 368): skip leading whitespace, optional sign,
leading decimal digits; 0 when no digits are present. -/
def atoiModel (s : String) : Int :=
  match skipSpaces s.data with
  | '-' :: cs => - digitsVal cs 0
  | '+' :: cs => digitsVal cs 0
  | cs => digitsVal cs 0

def successLine : String := "\nCommand Successful\n"

/-- The final classification of `cmd_ret` (lines 477-488). -/
def classify (cmd_ret : Int) : String :=
  if cmd_ret = 0 then successLine
  else if cmd_ret = 0xFFFF then notSupportedLine
  else unsuccessfulLine cmd_ret

def splitEqAux : List Char → List Char → String × Option String
  | acc, [] => (String.mk acc.reverse, none)
  | acc, c :: cs =>
    if c = '=' then (String.mk acc.reverse, some (String.mk cs))
    else splitEqAux (c :: acc) cs

def help_array : String :=
  "The following commands are supported:\n" ++
  " sevtool -[global opts] --[command] [command opts]\n" ++
  "(Please see the readme file for more detailed information)\n" ++
  "Platform Owner commands:\n" ++
  "  factory_reset\n" ++
  "  platform_status\n" ++
  "  pek_gen\n" ++
  "  pek_csr\n" ++
  "  pdh_gen\n" ++
  "  pdh_cert_export\n" ++
  "  pek_cert_import\n" ++
  "      Input params:\n" ++
  "          pek_csr.signed.cert file\n" ++
  "          oca.cert file\n" ++
  "  get_id\n" ++
  "  sign_pek_csr\n" ++
  "      Input params:\n" ++
  "          pek_csr.cert file\n" ++
  "          [oca private key].pem file\n" ++
  "  set_self_owned\n" ++
  "  set_externally_owned\n" ++
  "      Input params:\n" ++
  "          [oca private key].pem file\n" ++
  "  generate_cek_ask\n" ++
  "  get_ask_ark\n" ++
  "  export_cert_chain\n" ++
  "Guest Owner commands:\n" ++
  "  calc_measurement\n" ++
  "      Input params (all in ascii-encoded hex bytes):\n" ++
  "          uint8_t  meas_ctx\n" ++
  "          uint8_t  api_major\n" ++
  "          uint8_t  api_minor\n" ++
  "          uint8_t  build_id\n" ++
  "          uint32_t policy\n" ++
  "          uint32_t digest\n" ++
  "          uint8_t  m_nonce[128/8]\n" ++
  "          uint8_t  gctx_tik[128/8]\n" ++
  "  validate_cert_chain\n" ++
  "  generate_launch_blob\n" ++
  "      Input params:\n" ++
  "          uint32_t policy\n" ++
  "  package_secret\n" ++
  "  validate_attestation\n" ++
  "  validate_guest_report\n" ++
  "  validate_cert_chain_vcek\n" ++
  "  export_cert_chain_vcek\n"

def unrecLine (c : Char) : String :=
  "Unrecognised option: -" ++ String.mk [c] ++ "\n"

/-- A repeatable operation case of the switch: run
`perform_repetitions_and_analysis` with the current `repetitions`, store its
status into `cmd_ret`. -/
def execRepeatable (st : ToolState) (name : String) (runs : ℕ → List ℚ × Int)
    (drop : ℕ) : StepResult :=
  .cont (afterExec st name (perform_repetitions_and_analysis runs st.repetitions).1.2)
    drop (perform_repetitions_and_analysis runs st.repetitions).2

/-- A single-shot operation case: one `Command` call, status from the
oracle, no measurements and no repetition. -/
def execSingle (env : Env) (st : ToolState) (name : String) (drop : ℕ) : StepResult :=
  .cont (afterExec st name (env.singleStatus st.execCount)) drop []

/-- The switch of `main` (lines 208-474), by `getopt_long` result character.
`optarg` is the option's argument; for argument-consuming operations
`consumeStream` is the remaining positional stream (the tokens from
`argv[optind]` after the source's `optind--` to the end of `argv`), checked
for exact arity before anything else; `baseDrop` is how many following
tokens the option's own argument already consumed.  The `'s'` case
reproduces the source's arity message verbatim (line 381), which names
`pek_cert_import` rather than `sign_pek_csr`. -/
def dispatchCmd (env : Env) (st : ToolState) (c : Char) (optarg : String)
    (consumeStream : List String) (baseDrop : ℕ) : StepResult :=
  match c with
  | 'h' | 'H' => .cont (afterExec st "help" 0) baseDrop [.text (help_array ++ "\n")]
  | 'i' | 'I' => execSingle env st "sys_info" baseDrop
  | 'o' | 'O' =>
    match env.shellCheck ("if test -d " ++ (optarg ++ "/") ++
        " ; then echo \"exist\"; else echo \"no\"; fi") with
    | none =>
      .stop [.text ("Error. Output directory " ++ (optarg ++ "/") ++
        " existance check failed.\n")] 0
    | some outp =>
      if outp.take 2 = "ex" then .cont { st with output_folder := optarg ++ "/" } baseDrop []
      else
        .stop [.text ("Error. Output directory " ++ (optarg ++ "/") ++
          " does not exist. Please manually create it and try again\n")] 0
  | 'a' => execRepeatable st "factory_reset" (runsOf env st.execCount) baseDrop
  | 'b' => execRepeatable st "platform_status" (runsOf env st.execCount) baseDrop
  | 'c' => execRepeatable st "pek_gen" (runsOf env st.execCount) baseDrop
  | 'd' => execRepeatable st "pek_csr" (runsOf env st.execCount) baseDrop
  | 'e' => execRepeatable st "pdh_gen" (runsOf env st.execCount) baseDrop
  | 'f' => execRepeatable st "pdh_cert_export" (runsOf env st.execCount) baseDrop
  | 'g' =>
    if consumeStream.length ≠ 2 then
      .stop [.text "Error: Expecting exactly 2 args for pek_cert_import\n"] 0
    else execRepeatable st "pek_cert_import" (runsNoMeas env st.execCount) (baseDrop + 1)
  | 'j' => execRepeatable st "get_id" (runsOf env st.execCount) baseDrop
  | 'k' => execSingle env st "set_self_owned" baseDrop
  | 'l' =>
    if consumeStream.length ≠ 1 then
      .stop [.text "Error: Expecting exactly 1 arg for set_externally_owned\n"] 0
    else execSingle env st "set_externally_owned" baseDrop
  | 'm' => execSingle env st "generate_cek_ask" baseDrop
  | 'n' => execSingle env st "get_ask_ark" baseDrop
  | 'p' => execSingle env st "export_cert_chain" baseDrop
  | 'q' => execSingle env st "export_cert_chain_vcek" baseDrop
  | 'r' =>
    if atoiModel optarg ≤ 0 then
      .cont { st with repetitions := 1 } baseDrop
        [.text ("Error: Invalid repetitions value " ++ toString (atoiModel optarg) ++
          ". Using default.\n")]
    else .cont { st with repetitions := atoiModel optarg } baseDrop []
  | 's' =>
    if consumeStream.length ≠ 2 then
      .stop [.text "Error: Expecting exactly 2 args for pek_cert_import\n"] 0
    else execSingle env st "sign_pek_csr" (baseDrop + 1)
  | 't' =>
    if consumeStream.length ≠ 8 then
      .stop [.text "Error: Expecting exactly 8 args for calc_measurement\n"] 0
    else execSingle env st "calc_measurement" (baseDrop + 7)
  | 'u' => execSingle env st "validate_cert_chain" baseDrop
  | 'v' =>
    if consumeStream.length ≠ 1 then
      .stop [.text "Error: Expecting exactly 1 arg for generate_launch_blob\n"] 0
    else execSingle env st "generate_launch_blob" baseDrop
  | 'w' => execSingle env st "package_secret" baseDrop
  | 'x' => execSingle env st "validate_attestation" baseDrop
  | 'y' => execSingle env st "validate_guest_report" baseDrop
  | 'z' => execSingle env st "validate_cert_chain_vcek" baseDrop
  | 'T' =>
    .cont (afterExec st "test_all" (if env.singleStatus st.execCount = 0 then 1 else 0))
      baseDrop []
  | _ => .stop [.text (unrecLine c)] 0

/-- One iteration of `main`'s `while (getopt_long(...))` loop on the next
token `t` with remaining tokens `ts`. -/
def mainStep (env : Env) (st : ToolState) (t : String) (ts : List String) : StepResult :=
  match t.data with
  | '-' :: '-' :: [] => .finish
  | '-' :: '-' :: body =>
    match lookupLongOpt (splitEqAux [] body).1 with
    | none => .stop [.text (unrecLine (Char.ofNat 0))] 0
    | some o =>
      match o.action with
      | .setFlag v =>
        match (splitEqAux [] body).2 with
        | some _ => .stop [.text (unrecLine (Char.ofNat 0))] 0
        | none => .cont { st with verbose_flag := v } 0 []
      | .cmd c =>
        if o.requiresArg then
          match (splitEqAux [] body).2 with
          | some a => dispatchCmd env st c a (t :: ts) 0
          | none =>
            match ts with
            | [] => .stop [.text (unrecLine c)] 0
            | a :: _ => dispatchCmd env st c a ts 1
        else
          match (splitEqAux [] body).2 with
          | some _ => .stop [.text (unrecLine (Char.ofNat 0))] 0
          | none => dispatchCmd env st c "" ts 0
  | '-' :: c :: rest =>
    if (c = 'h' ∨ c = 'i') ∧ rest = [] then
      dispatchCmd env st c "" ts 0
    else if c = 'o' ∨ c = 'r' then
      match rest with
      | [] =>
        match ts with
        | [] => .stop [.text (unrecLine c)] 0
        | a :: _ => dispatchCmd env st c a ts 1
      | _ => dispatchCmd env st c (String.mk rest) ts 0
    else .stop [.text (unrecLine c)] 0
  | _ => .cont st 0 []

/-- The option-processing loop, fuelled by the number of tokens (each step
consumes at least the head token, so `tokens.length` fuel always
suffices). -/
def runLoopAux (env : Env) : ℕ → ToolState → List String → List OutEvent × Option ToolState × Int
  | _, st, [] => ([], some st, 0)
  | 0, st, _ :: _ => ([], some st, 0)
  | fuel + 1, st, t :: ts =>
    match mainStep env st t ts with
    | .finish => ([], some st, 0)
    | .stop out e => (out, none, e)
    | .cont st' k out =>
      let r := runLoopAux env fuel st' (ts.drop k)
      (out ++ r.1, r.2)

def runLoop (env : Env) (st : ToolState) (tokens : List String) :
    List OutEvent × Option ToolState × Int :=
  runLoopAux env tokens.length st tokens

/-- `main`: run the parse/dispatch loop over the argument tokens
(`argv[1..]`); if it completes, print the final classification of the
surviving `cmd_ret` (lines 477-488) and `return 0`; an early `return false`
inside the loop is also exit code 0. -/
def sevtool_main (env : Env) (args : List String) : List OutEvent × Int :=
  match runLoop env initState args with
  | (out, some st, _) => (out ++ [.text (classify st.cmd_ret)], 0)
  | (out, none, e) => (out, e)

/-- An oracle on which every operation succeeds with no measurements and the
output-folder check passes. -/
def envAllOk : Env :=
  ⟨fun _ _ => 0, fun _ _ => [], fun _ => 0, fun _ => some "exist\n"⟩

def envFail7 : Env :=
  ⟨fun _ _ => 7, fun _ _ => [], fun _ => 7, fun _ => some "exist\n"⟩

/-- The status of the last `cmd_ret` assignment, or the default when no
operation-selecting flag was ever matched. -/
def lastStatusD (tr : List ExecRecord) (d : Int) : Int :=
  match tr.getLast? with
  | none => d
  | some r => r.status

def verboseState : ToolState := ⟨"./", 1, 1, 0xFFFF, 0, []⟩

def stRep3 : ToolState := ⟨"./", 0, 3, 0xFFFF, 0, []⟩

def statePekGenReps3 : ToolState := ⟨"./", 0, 3, 0, 1, [⟨"pek_gen", "./", 0, 1, 0⟩]⟩

example : computeStats [10, 20, 30, 40] = .ok ⟨10, 15, 25, 35, 40, 4, 25, 125⟩ := by decide

example : computeStats [1, 2, 3, 4, 5] = .ok ⟨1, 2, 3, 4, 5, 5, 3, 2⟩ := by decide

example : computeStats [] = .error .divideByZero := by decide

example : computeStats [10, 20] = .error .indexOutOfBounds := by decide

example : computeStats [5] = .ok ⟨5, 5, 5, 5, 5, 1, 5, 0⟩ := by decide

/-!
## Helper lemmas about the statistics reducer
-/

theorem foldl_add_eq (l : List ℚ) : ∀ a : ℚ, l.foldl (· + ·) a = a + l.sum := by
  induction l with
  | nil => intro a; simp
  | cons x xs ih => intro a; simp [ih, add_assoc]

theorem sumList_eq_sum (l : List ℚ) : sumList l = l.sum := by
  simpa [sumList] using foldl_add_eq l 0

theorem foldl_addf_eq (f : ℚ → ℚ) (l : List ℚ) :
    ∀ a : ℚ, l.foldl (fun acc v => acc + f v) a = a + (l.map f).sum := by
  induction l with
  | nil => intro a; simp
  | cons x xs ih => intro a; simp [ih, add_assoc]

theorem varSum_eq_sum (l : List ℚ) (m : ℚ) :
    varSum l m = ((l.map (fun v => (v - m) * (v - m))).sum) := by
  simpa [varSum] using foldl_addf_eq (fun v => (v - m) * (v - m)) l 0

theorem varSum_nonneg (l : List ℚ) (m : ℚ) : 0 ≤ varSum l m := by
  rw [varSum_eq_sum]
  apply List.sum_nonneg
  intro x hx
  simp only [List.mem_map] at hx
  obtain ⟨v, -, rfl⟩ := hx
  exact mul_self_nonneg _

theorem sortedSample_sorted (l : List ℚ) : (sortedSample l).Sorted (· ≤ ·) :=
  List.sorted_insertionSort _ l

theorem sortedSample_perm (l : List ℚ) : (sortedSample l).Perm l :=
  List.perm_insertionSort _ l

theorem length_sortedSample (l : List ℚ) : (sortedSample l).length = l.length :=
  (sortedSample_perm l).length_eq

theorem sorted_get_le {l : List ℚ} (hs : l.Sorted (· ≤ ·)) (i j : Fin l.length)
    (hij : (i : ℕ) ≤ (j : ℕ)) : l.get i ≤ l.get j := by
  rcases lt_or_eq_of_le hij with hlt | heq
  · exact hs.rel_get_of_lt hlt
  · rw [Fin.ext heq]

theorem checkedDiv_ok {a b c : ℚ} (h : checkedDiv a b = .ok c) :
    b ≠ 0 ∧ c = a / b := by
  unfold checkedDiv at h
  by_cases hb : b = 0
  · rw [if_pos hb] at h; cases h
  · rw [if_neg hb] at h; cases h; exact ⟨hb, rfl⟩

theorem vecIdx_ok {l : List ℚ} {i : Int} {v : ℚ} (h : vecIdx l i = .ok v) :
    0 ≤ i ∧ ∃ hf : i.toNat < l.length, v = l.get ⟨i.toNat, hf⟩ := by
  unfold vecIdx at h
  by_cases hc : 0 ≤ i ∧ i.toNat < l.length
  · rw [dif_pos hc] at h; cases h; exact ⟨hc.1, hc.2, rfl⟩
  · rw [dif_neg hc] at h; cases h

theorem vecIdx_isOk {l : List ℚ} {i : Int} (h0 : 0 ≤ i) (hlt : i.toNat < l.length) :
    ∃ v, vecIdx l i = .ok v := by
  exact ⟨l.get ⟨i.toNat, hlt⟩, by unfold vecIdx; rw [dif_pos ⟨h0, hlt⟩]⟩

theorem foldl_min_le (xs : List ℚ) : ∀ x : ℚ,
    xs.foldl min x ≤ x ∧ ∀ y ∈ xs, xs.foldl min x ≤ y := by
  induction xs with
  | nil => intro x; simp
  | cons z zs ih =>
    intro x
    refine ⟨le_trans (ih (min x z)).1 (min_le_left _ _), ?_⟩
    intro y hy
    rcases List.mem_cons.1 hy with rfl | hy
    · exact le_trans (ih (min x y)).1 (min_le_right _ _)
    · exact (ih (min x z)).2 y hy

theorem foldl_le_max (xs : List ℚ) : ∀ x : ℚ,
    x ≤ xs.foldl max x ∧ ∀ y ∈ xs, y ≤ xs.foldl max x := by
  induction xs with
  | nil => intro x; simp
  | cons z zs ih =>
    intro x
    refine ⟨le_trans (le_max_left _ _) (ih (max x z)).1, ?_⟩
    intro y hy
    rcases List.mem_cons.1 hy with rfl | hy
    · exact le_trans (le_max_right _ _) (ih (max x y)).1
    · exact (ih (max x z)).2 y hy

theorem vecMin_ok_le {l : List ℚ} {m : ℚ} (h : vecMin l = .ok m) :
    ∀ x ∈ l, m ≤ x := by
  cases l with
  | nil => cases h
  | cons x xs =>
    cases h
    intro y hy
    rcases List.mem_cons.1 hy with rfl | hy
    · exact (foldl_min_le xs y).1
    · exact (foldl_min_le xs x).2 y hy

theorem vecMax_ok_ge {l : List ℚ} {m : ℚ} (h : vecMax l = .ok m) :
    ∀ x ∈ l, x ≤ m := by
  cases l with
  | nil => cases h
  | cons x xs =>
    cases h
    intro y hy
    rcases List.mem_cons.1 hy with rfl | hy
    · exact (foldl_le_max xs y).1
    · exact (foldl_le_max xs x).2 y hy

theorem except_bind_ok {α β : Type} {x : Except StatErr α} {f : α → Except StatErr β}
    {b : β} : Except.bind x f = .ok b ↔ ∃ a, x = .ok a ∧ f a = .ok b := by
  cases x with
  | error e => simp [Except.bind]
  | ok a => simp [Except.bind]

theorem pairAvg_ok {l : List ℚ} {i j : Int} {v : ℚ} (h : pairAvg l i j = .ok v) :
    ∃ a b, vecIdx l i = .ok a ∧ vecIdx l j = .ok b ∧ v = (a + b) / 2 := by
  unfold pairAvg at h
  cases hi : vecIdx l i with
  | error e =>
    rw [hi] at h
    cases hj : vecIdx l j with
    | error e2 => rw [hj] at h; cases h
    | ok b => rw [hj] at h; cases h
  | ok a =>
    rw [hi] at h
    cases hj : vecIdx l j with
    | error e => rw [hj] at h; cases h
    | ok b =>
      rw [hj] at h
      cases h
      exact ⟨a, b, rfl, rfl, rfl⟩

theorem qSel_ok_mem_avg {l : List ℚ} {n ie1 ie2 io : Int} {v : ℚ}
    (h : qSel l n ie1 ie2 io = .ok v) :
    ∃ a b, a ∈ l ∧ b ∈ l ∧ v = (a + b) / 2 := by
  unfold qSel at h
  by_cases hp : n % 2 = 0
  · rw [if_pos hp] at h
    obtain ⟨a, b, ha, hb, rfl⟩ := pairAvg_ok h
    obtain ⟨-, hfa, rfl⟩ := vecIdx_ok ha
    obtain ⟨-, hfb, rfl⟩ := vecIdx_ok hb
    exact ⟨_, _, List.get_mem _ _ _, List.get_mem _ _ _, rfl⟩
  · rw [if_neg hp] at h
    obtain ⟨-, hf, rfl⟩ := vecIdx_ok h
    exact ⟨_, _, List.get_mem _ _ _, List.get_mem _ _ _, by ring⟩

theorem qSel_mono {l : List ℚ} (hs : l.Sorted (· ≤ ·)) {n i1 i2 i3 j1 j2 j3 : Int}
    {v w : ℚ} (hv : qSel l n i1 i2 i3 = .ok v) (hw : qSel l n j1 j2 j3 = .ok w)
    (h1 : i1 ≤ j1) (h2 : i2 ≤ j2) (h3 : i3 ≤ j3) : v ≤ w := by
  unfold qSel at hv hw
  by_cases hp : n % 2 = 0
  · rw [if_pos hp] at hv hw
    obtain ⟨a1, a2, ha1, ha2, rfl⟩ := pairAvg_ok hv
    obtain ⟨b1, b2, hb1, hb2, rfl⟩ := pairAvg_ok hw
    obtain ⟨hi1, hfa1, rfl⟩ := vecIdx_ok ha1
    obtain ⟨hi2, hfa2, rfl⟩ := vecIdx_ok ha2
    obtain ⟨hj1, hfb1, rfl⟩ := vecIdx_ok hb1
    obtain ⟨hj2, hfb2, rfl⟩ := vecIdx_ok hb2
    have g1 := sorted_get_le hs ⟨_, hfa1⟩ ⟨_, hfb1⟩ (Int.toNat_le_toNat h1)
    have g2 := sorted_get_le hs ⟨_, hfa2⟩ ⟨_, hfb2⟩ (Int.toNat_le_toNat h2)
    linarith
  · rw [if_neg hp] at hv hw
    obtain ⟨hi3, hfv, rfl⟩ := vecIdx_ok hv
    obtain ⟨hj3, hfw, rfl⟩ := vecIdx_ok hw
    exact sorted_get_le hs ⟨_, hfv⟩ ⟨_, hfw⟩ (Int.toNat_le_toNat h3)

theorem qSel_ok_getD {l : List ℚ} {n ie1 ie2 io : Int} {v : ℚ}
    (h : qSel l n ie1 ie2 io = .ok v) :
    (n % 2 = 0 ∧ 0 ≤ ie1 ∧ 0 ≤ ie2 ∧
      v = (l.getD ie1.toNat 0 + l.getD ie2.toNat 0) / 2) ∨
    (¬n % 2 = 0 ∧ 0 ≤ io ∧ v = l.getD io.toNat 0) := by
  unfold qSel at h
  by_cases hp : n % 2 = 0
  · rw [if_pos hp] at h
    obtain ⟨a, b, ha, hb, rfl⟩ := pairAvg_ok h
    obtain ⟨h01, hfa, rfl⟩ := vecIdx_ok ha
    obtain ⟨h02, hfb, rfl⟩ := vecIdx_ok hb
    exact .inl ⟨hp, h01, h02, by rw [List.getD_eq_get _ _ hfa, List.getD_eq_get _ _ hfb]⟩
  · rw [if_neg hp] at h
    obtain ⟨h0, hf, rfl⟩ := vecIdx_ok h
    exact .inr ⟨hp, h0, by rw [List.getD_eq_get _ _ hf]⟩

/-- Inversion of a successful run of the statistics block: every component
step succeeded with the recorded value. -/
theorem computeStats_ok_inv {s : List ℚ} {out : StatsSummary}
    (h : computeStats s = .ok out) :
    (s.length : ℚ) ≠ 0 ∧
    out.mean = sumList s / (s.length : ℚ) ∧
    out.variance = varSum s out.mean / (s.length : ℚ) ∧
    vecMin (sortedSample s) = .ok out.min ∧
    vecMax (sortedSample s) = .ok out.max ∧
    qSel (sortedSample s) ((s.length : Int)) ((s.length : Int) / 4 - 1)
      ((s.length : Int) / 4) ((s.length : Int) / 4) = .ok out.q1 ∧
    qSel (sortedSample s) ((s.length : Int)) (3 * (s.length : Int) / 4 - 1)
      (3 * (s.length : Int) / 4) (3 * (s.length : Int) / 4) = .ok out.q3 ∧
    qSel (sortedSample s) ((s.length : Int)) ((s.length : Int) / 2 - 1)
      ((s.length : Int) / 2) ((s.length : Int) / 2) = .ok out.median ∧
    out.count = s.length := by
  unfold computeStats at h
  rw [except_bind_ok] at h
  obtain ⟨mean, hmean, h⟩ := h
  rw [except_bind_ok] at h
  obtain ⟨variance, hvar, h⟩ := h
  rw [except_bind_ok] at h
  obtain ⟨mn, hmn, h⟩ := h
  rw [except_bind_ok] at h
  obtain ⟨mx, hmx, h⟩ := h
  rw [except_bind_ok] at h
  obtain ⟨q1, hq1, h⟩ := h
  rw [except_bind_ok] at h
  obtain ⟨q3, hq3, h⟩ := h
  rw [except_bind_ok] at h
  obtain ⟨median, hmed, h⟩ := h
  cases h
  obtain ⟨hne, hm⟩ := checkedDiv_ok hmean
  obtain ⟨-, hv⟩ := checkedDiv_ok hvar
  subst hm
  subst hv
  exact ⟨hne, rfl, rfl, hmn, hmx, hq1, hq3, hmed, rfl⟩

theorem computeStats_variance_nonneg {s : List ℚ} {out : StatsSummary}
    (h : computeStats s = .ok out) : 0 ≤ out.variance := by
  obtain ⟨-, -, hvar, -⟩ := computeStats_ok_inv h
  rw [hvar]
  exact div_nonneg (varSum_nonneg _ _) (Nat.cast_nonneg _)

theorem except_bind_ok_intro {α β : Type} {x : Except StatErr α}
    {f : α → Except StatErr β} {a : α} {b : β}
    (hx : x = .ok a) (hf : f a = .ok b) : Except.bind x f = .ok b := by
  rw [hx]; exact hf

theorem median_formula {s : List ℚ} {v : ℚ}
    (h : qSel (sortedSample s) ((s.length : Int)) ((s.length : Int) / 2 - 1)
      ((s.length : Int) / 2) ((s.length : Int) / 2) = .ok v) :
    v = specMedian s := by
  rcases qSel_ok_getD h with ⟨hpar, hge, -, hv⟩ | ⟨hpar, hge, hv⟩
  · have hp : s.length % 2 = 0 := by omega
    have e1 : ((s.length : ℤ) / 2 - 1).toNat = s.length / 2 - 1 := by omega
    have e2 : ((s.length : ℤ) / 2).toNat = s.length / 2 := by omega
    simp only [specMedian]
    rw [if_pos hp, hv, e1, e2]
  · have hp : ¬s.length % 2 = 0 := by omega
    have e2 : ((s.length : ℤ) / 2).toNat = s.length / 2 := by omega
    simp only [specMedian]
    rw [if_neg hp, hv, e2]

theorem q1_formula {s : List ℚ} {v : ℚ}
    (h : qSel (sortedSample s) ((s.length : Int)) ((s.length : Int) / 4 - 1)
      ((s.length : Int) / 4) ((s.length : Int) / 4) = .ok v) :
    v = specQ1 s := by
  rcases qSel_ok_getD h with ⟨hpar, hge, -, hv⟩ | ⟨hpar, hge, hv⟩
  · have hp : s.length % 2 = 0 := by omega
    have e1 : ((s.length : ℤ) / 4 - 1).toNat = s.length / 4 - 1 := by omega
    have e2 : ((s.length : ℤ) / 4).toNat = s.length / 4 := by omega
    simp only [specQ1]
    rw [if_pos hp, hv, e1, e2]
  · have hp : ¬s.length % 2 = 0 := by omega
    have e2 : ((s.length : ℤ) / 4).toNat = s.length / 4 := by omega
    simp only [specQ1]
    rw [if_neg hp, hv, e2]

theorem q3_formula {s : List ℚ} {v : ℚ}
    (h : qSel (sortedSample s) ((s.length : Int)) (3 * (s.length : Int) / 4 - 1)
      (3 * (s.length : Int) / 4) (3 * (s.length : Int) / 4) = .ok v) :
    v = specQ3 s := by
  rcases qSel_ok_getD h with ⟨hpar, hge, -, hv⟩ | ⟨hpar, hge, hv⟩
  · have hp : s.length % 2 = 0 := by omega
    have e1 : (3 * (s.length : ℤ) / 4 - 1).toNat = 3 * s.length / 4 - 1 := by omega
    have e2 : (3 * (s.length : ℤ) / 4).toNat = 3 * s.length / 4 := by omega
    simp only [specQ3]
    rw [if_pos hp, hv, e1, e2]
  · have hp : ¬s.length % 2 = 0 := by omega
    have e2 : (3 * (s.length : ℤ) / 4).toNat = 3 * s.length / 4 := by omega
    simp only [specQ3]
    rw [if_neg hp, hv, e2]

theorem qSel_isOk_even {l : List ℚ} {n ie1 ie2 io : Int} (hp : n % 2 = 0)
    (h1 : 0 ≤ ie1) (h1b : ie1.toNat < l.length)
    (h2 : 0 ≤ ie2) (h2b : ie2.toNat < l.length) :
    ∃ v, qSel l n ie1 ie2 io = .ok v := by
  obtain ⟨a, ha⟩ := vecIdx_isOk h1 h1b
  obtain ⟨b, hb⟩ := vecIdx_isOk h2 h2b
  refine ⟨(a + b) / 2, ?_⟩
  unfold qSel pairAvg
  rw [if_pos hp, ha, hb]

theorem qSel_isOk_odd {l : List ℚ} {n ie1 ie2 io : Int} (hp : ¬n % 2 = 0)
    (h1 : 0 ≤ io) (h1b : io.toNat < l.length) :
    ∃ v, qSel l n ie1 ie2 io = .ok v := by
  obtain ⟨a, ha⟩ := vecIdx_isOk h1 h1b
  refine ⟨a, ?_⟩
  unfold qSel
  rw [if_neg hp, ha]

/-- The statistics reduction succeeds on every sample of odd size and on
every sample of even size at least 4 (the complement is claim C3's
reachable error branch). -/
theorem computeStats_isOk (s : List ℚ)
    (hs : s.length % 2 = 1 ∨ (s.length % 2 = 0 ∧ 4 ≤ s.length)) :
    ∃ out, computeStats s = .ok out := by
  have hlen1 : 1 ≤ s.length := by omega
  have hql : (s.length : ℚ) ≠ 0 := Nat.cast_ne_zero.2 (by omega)
  have hsl : (sortedSample s).length = s.length := length_sortedSample s
  have hmean : checkedDiv (sumList s) ((s.length : ℚ)) = .ok (sumList s / (s.length : ℚ)) := by
    unfold checkedDiv; rw [if_neg hql]
  have hvar : ∀ m : ℚ, checkedDiv (varSum s m) ((s.length : ℚ)) =
      .ok (varSum s m / (s.length : ℚ)) := by
    intro m; unfold checkedDiv; rw [if_neg hql]
  obtain ⟨x, xs, hcons⟩ : ∃ x xs, sortedSample s = x :: xs := by
    cases hsort : sortedSample s with
    | nil => rw [hsort] at hsl; simp at hsl; omega
    | cons x xs => exact ⟨x, xs, rfl⟩
  have hmn : vecMin (sortedSample s) = .ok (xs.foldl min x) := by rw [hcons]; rfl
  have hmx : vecMax (sortedSample s) = .ok (xs.foldl max x) := by rw [hcons]; rfl
  obtain ⟨q1, hq1⟩ : ∃ v, qSel (sortedSample s) ((s.length : Int))
      ((s.length : Int) / 4 - 1) ((s.length : Int) / 4) ((s.length : Int) / 4) = .ok v := by
    rcases hs with hodd | ⟨heven, h4⟩
    · exact qSel_isOk_odd (by omega) (by omega) (by rw [hsl]; omega)
    · exact qSel_isOk_even (by omega) (by omega) (by rw [hsl]; omega)
        (by omega) (by rw [hsl]; omega)
  obtain ⟨q3, hq3⟩ : ∃ v, qSel (sortedSample s) ((s.length : Int))
      (3 * (s.length : Int) / 4 - 1) (3 * (s.length : Int) / 4)
      (3 * (s.length : Int) / 4) = .ok v := by
    rcases hs with hodd | ⟨heven, h4⟩
    · exact qSel_isOk_odd (by omega) (by omega) (by rw [hsl]; omega)
    · exact qSel_isOk_even (by omega) (by omega) (by rw [hsl]; omega)
        (by omega) (by rw [hsl]; omega)
  obtain ⟨median, hmed⟩ : ∃ v, qSel (sortedSample s) ((s.length : Int))
      ((s.length : Int) / 2 - 1) ((s.length : Int) / 2) ((s.length : Int) / 2) = .ok v := by
    rcases hs with hodd | ⟨heven, h4⟩
    · exact qSel_isOk_odd (by omega) (by omega) (by rw [hsl]; omega)
    · exact qSel_isOk_even (by omega) (by omega) (by rw [hsl]; omega)
        (by omega) (by rw [hsl]; omega)
  refine ⟨⟨xs.foldl min x, q1, median, q3, xs.foldl max x, s.length,
    sumList s / (s.length : ℚ), varSum s (sumList s / (s.length : ℚ)) / (s.length : ℚ)⟩, ?_⟩
  unfold computeStats
  exact except_bind_ok_intro hmean (except_bind_ok_intro (hvar _)
    (except_bind_ok_intro hmn (except_bind_ok_intro hmx (except_bind_ok_intro hq1
      (except_bind_ok_intro hq3 (except_bind_ok_intro hmed rfl))))))

/-- C2: for every sample on which the statistics reduction is defined, it
computes (over the sorted-ascending copy) the mean as sum/n, the population
variance (divide by `n`) with the standard deviation its square root, the
median as the average of the elements at indices `n/2-1` and `n/2` for even
`n` and the element at `n/2` for odd `n`, and the quartiles at the spec's
indices `n/4-1`,`n/4` / `3n/4-1`,`3n/4` (even) resp. `n/4` / `3n/4` (odd);
the reduction is defined for every odd size and every even size `≥ 4`; and
on {10,20,30,40} it yields Q1=15, median=25, Q3=35, mean=25, while on
{1,2,3,4,5} it yields Q1=2, median=3, Q3=4, mean=3. -/
theorem stats_reduction_formulas :
    (∀ (s : List ℚ) (out : StatsSummary), computeStats s = .ok out →
      out.count = s.length ∧ out.mean = specMean s ∧ out.variance = specVariance s ∧
      out.median = specMedian s ∧ out.q1 = specQ1 s ∧ out.q3 = specQ3 s ∧
      stdevOf out = Real.sqrt ((specVariance s : ℚ) : ℝ) ∧
      0 ≤ stdevOf out ∧ stdevOf out ^ 2 = ((out.variance : ℚ) : ℝ)) ∧
    (∀ s : List ℚ, s.length % 2 = 1 ∨ (s.length % 2 = 0 ∧ 4 ≤ s.length) →
      ∃ out, computeStats s = .ok out) ∧
    computeStats sample4 = .ok stats4 ∧
    computeStats sample5 = .ok stats5 := by
  refine ⟨?_, computeStats_isOk, by decide, by decide⟩
  intro s out h
  obtain ⟨hne, hm, hv, hmn, hmx, hq1, hq3, hmed, hcount⟩ := computeStats_ok_inv h
  have hmean : out.mean = specMean s := by rw [hm, sumList_eq_sum]; rfl
  have hvar : out.variance = specVariance s := by
    rw [hv, hmean, varSum_eq_sum]; rfl
  have hstd : stdevOf out = Real.sqrt ((specVariance s : ℚ) : ℝ) := by
    rw [stdevOf, hvar]
  refine ⟨hcount, hmean, hvar, median_formula hmed, q1_formula hq1, q3_formula hq3,
    hstd, Real.sqrt_nonneg _, ?_⟩
  apply Real.sq_sqrt
  exact_mod_cast computeStats_variance_nonneg h

theorem stats_reduction_formulas_witness :
    (stats4.count = sample4.length ∧ stats4.mean = specMean sample4 ∧
     stats4.variance = specVariance sample4 ∧ stats4.median = specMedian sample4 ∧
     stats4.q1 = specQ1 sample4 ∧ stats4.q3 = specQ3 sample4 ∧
     stdevOf stats4 = Real.sqrt ((specVariance sample4 : ℚ) : ℝ) ∧
     0 ≤ stdevOf stats4 ∧ stdevOf stats4 ^ 2 = ((stats4.variance : ℚ) : ℝ)) ∧
    (∃ out, computeStats sample5 = .ok out) :=
  ⟨stats_reduction_formulas.1 sample4 stats4 (by decide),
   stats_reduction_formulas.2.1 sample5 (Or.inl (by decide))⟩

/-- C4: whenever the statistics reduction is defined, its outputs satisfy
min ≤ Q1 ≤ median ≤ Q3 ≤ max and variance ≥ 0. -/
theorem summary_order_bounds (s : List ℚ) (out : StatsSummary)
    (h : computeStats s = .ok out) :
    out.min ≤ out.q1 ∧ out.q1 ≤ out.median ∧ out.median ≤ out.q3 ∧
    out.q3 ≤ out.max ∧ 0 ≤ out.variance := by
  obtain ⟨hne, hm, hv, hmn, hmx, hq1, hq3, hmed, hcount⟩ := computeStats_ok_inv h
  have hs := sortedSample_sorted s
  refine ⟨?_, ?_, ?_, ?_, computeStats_variance_nonneg h⟩
  · obtain ⟨a, b, ha, hb, hvv⟩ := qSel_ok_mem_avg hq1
    have h1 := vecMin_ok_le hmn a ha
    have h2 := vecMin_ok_le hmn b hb
    rw [hvv]; linarith
  · exact qSel_mono hs hq1 hmed (by omega) (by omega) (by omega)
  · exact qSel_mono hs hmed hq3 (by omega) (by omega) (by omega)
  · obtain ⟨a, b, ha, hb, hvv⟩ := qSel_ok_mem_avg hq3
    have h1 := vecMax_ok_ge hmx a ha
    have h2 := vecMax_ok_ge hmx b hb
    rw [hvv]; linarith

theorem summary_order_bounds_witness :
    computeStats sample4 = .ok stats4 ∧
    (stats4.min ≤ stats4.q1 ∧ stats4.q1 ≤ stats4.median ∧ stats4.median ≤ stats4.q3 ∧
     stats4.q3 ≤ stats4.max ∧ 0 ≤ stats4.variance) :=
  ⟨by decide, summary_order_bounds sample4 stats4 (by decide)⟩

/-- C5: the statistics reduction is order-independent — it returns identical
results (all statistics and the error behaviour) on any permutation of a
sample — and applying it a second time to the sample it just sorted in place
gives the same result as the first application. -/
theorem stats_shuffle_idempotent (s t : List ℚ) (h : s.Perm t) :
    computeStats s = computeStats t ∧
    computeStats (sortedSample s) = computeStats s := by
  have key : ∀ u v : List ℚ, u.Perm v → computeStats u = computeStats v := by
    intro u v huv
    have h1 : sumList u = sumList v := by
      rw [sumList_eq_sum, sumList_eq_sum, huv.sum_eq]
    have h2 : u.length = v.length := huv.length_eq
    have h3 : varSum u = varSum v := by
      funext m
      rw [varSum_eq_sum, varSum_eq_sum, (huv.map _).sum_eq]
    have h4 : sortedSample u = sortedSample v :=
      List.eq_of_perm_of_sorted
        ((sortedSample_perm u).trans (huv.trans (sortedSample_perm v).symm))
        (sortedSample_sorted u) (sortedSample_sorted v)
    simp only [computeStats, h1, h2, h3, h4]
  exact ⟨key s t h, key _ _ (sortedSample_perm s)⟩

theorem stats_shuffle_idempotent_witness :
    ([3, 1, 2] : List ℚ).Perm [1, 2, 3] ∧
    computeStats ([3, 1, 2] : List ℚ) = computeStats [1, 2, 3] ∧
    computeStats (sortedSample [3, 1, 2]) = computeStats [3, 1, 2] :=
  ⟨by decide, (stats_shuffle_idempotent [3, 1, 2] [1, 2, 3] (by decide)).1,
   (stats_shuffle_idempotent [3, 1, 2] [1, 2, 3] (by decide)).2⟩

theorem repRunAux_all_ok (runs : ℕ → List ℚ × Int) :
    ∀ (fuel s : ℕ) (acc : List ℚ), (∀ j, j < fuel → (runs (s + j)).2 = 0) →
    repRunAux runs fuel s acc 0 =
      (acc ++ ((List.range' s fuel).map (fun j => (runs j).1)).flatten, 0) := by
  intro fuel
  induction fuel with
  | zero => intro s acc _; simp [repRunAux]
  | succ f ih =>
    intro s acc hok
    have h0 : (runs s).2 = 0 := by simpa using hok 0 (by omega)
    have step : repRunAux runs (f + 1) s acc 0 =
        repRunAux runs f (s + 1) (acc ++ (runs s).1) 0 := by
      simp only [repRunAux]
      rw [if_neg (by simp [h0]), h0]
    rw [step, ih (s + 1) (acc ++ (runs s).1) (fun j hj => by
      have := hok (j + 1) (by omega)
      simpa [Nat.add_assoc, Nat.add_comm 1 j] using this)]
    rw [List.range'_succ]
    simp

theorem repRunAux_fail_at (runs : ℕ → List ℚ × Int) :
    ∀ (f fuel s : ℕ) (acc : List ℚ), f < fuel →
    (∀ j, j < f → (runs (s + j)).2 = 0) → (runs (s + f)).2 ≠ 0 →
    repRunAux runs fuel s acc 0 =
      (acc ++ ((List.range' s (f + 1)).map (fun j => (runs j).1)).flatten,
        (runs (s + f)).2) := by
  intro f
  induction f with
  | zero =>
    intro fuel s acc hlt _ hfail
    obtain ⟨f', rfl⟩ : ∃ f', fuel = f' + 1 := ⟨fuel - 1, by omega⟩
    simp only [Nat.add_zero] at hfail
    simp only [repRunAux]
    rw [if_pos (by simpa using hfail)]
    rw [List.range'_succ]
    simp
  | succ k ih =>
    intro fuel s acc hlt hok hfail
    obtain ⟨f', rfl⟩ : ∃ f', fuel = f' + 1 := ⟨fuel - 1, by omega⟩
    have h0 : (runs s).2 = 0 := by simpa using hok 0 (by omega)
    have step : repRunAux runs (f' + 1) s acc 0 =
        repRunAux runs f' (s + 1) (acc ++ (runs s).1) 0 := by
      simp only [repRunAux]
      rw [if_neg (by simp [h0]), h0]
    rw [step, ih f' (s + 1) (acc ++ (runs s).1) (by omega)
      (fun j hj => by
        have := hok (j + 1) (by omega)
        simpa [Nat.add_assoc, Nat.add_comm 1 j] using this)
      (by
        have harg2 : s + 1 + k = s + (k + 1) := by omega
        rw [harg2]; exact hfail)]
    have harg : s + 1 + k = s + (k + 1) := by omega
    simp [List.range'_succ, harg]

/-- C1: a repetition cycle with requested count `N` executes runs in strict
sequence.  If the first `k-1` runs return 0 and run `k` (1-based) returns a
non-zero status, the cycle's sample is exactly the measurements of runs
`1..k`, the terminal status is run `k`'s status, and runs `k+1..N` never
execute (the outcome is unchanged under any modification of the runs after
`k`).  If all `N` runs return 0, the terminal status is 0 and the sample
collects all `N` runs' measurements. -/
theorem repetition_early_exit (runs : ℕ → List ℚ × Int) (N k : ℕ)
    (hk1 : 1 ≤ k) (hkN : k ≤ N) (hok : ∀ j, j < k - 1 → (runs j).2 = 0) :
    ((runs (k - 1)).2 ≠ 0 →
      repRun runs N =
        (((List.range k).map (fun j => (runs j).1)).flatten, (runs (k - 1)).2) ∧
      ∀ runs' : ℕ → List ℚ × Int, (∀ j, j < k → runs' j = runs j) →
        repRun runs' N = repRun runs N) ∧
    ((∀ j, j < N → (runs j).2 = 0) →
      repRun runs N = (((List.range N).map (fun j => (runs j).1)).flatten, 0)) := by
  constructor
  · intro hfail
    have hmain : repRun runs N =
        (((List.range k).map (fun j => (runs j).1)).flatten, (runs (k - 1)).2) := by
      unfold repRun
      have := repRunAux_fail_at runs (k - 1) N 0 [] (by omega)
        (fun j hj => by simpa using hok j hj) (by simpa using hfail)
      rw [this]
      have hk' : k - 1 + 1 = k := by omega
      rw [hk', List.range_eq_range']
      simp
    refine ⟨hmain, ?_⟩
    intro runs' hagree
    have hflat : ((List.range k).map (fun j => (runs' j).1)).flatten =
        ((List.range k).map (fun j => (runs j).1)).flatten := by
      congr 1
      apply List.map_congr_left
      intro j hj
      rw [hagree j (List.mem_range.1 hj)]
    have hmain' : repRun runs' N =
        (((List.range k).map (fun j => (runs' j).1)).flatten, (runs' (k - 1)).2) := by
      unfold repRun
      have := repRunAux_fail_at runs' (k - 1) N 0 [] (by omega)
        (fun j hj => by rw [hagree (0 + j) (by omega)]; simpa using hok j hj)
        (by rw [hagree (0 + (k - 1)) (by omega)]; simpa using hfail)
      rw [this]
      have hk' : k - 1 + 1 = k := by omega
      rw [hk', List.range_eq_range']
      simp
    rw [hmain, hmain', hflat, hagree (k - 1) (by omega)]
  · intro hallok
    unfold repRun
    have := repRunAux_all_ok runs N 0 [] (fun j hj => by simpa using hallok j hj)
    rw [this, List.range_eq_range']
    simp

theorem repetition_early_exit_witness :
    repRun witnessRuns 5 = ([0, 1, 2], 9) ∧ (witnessRuns 2).2 = 9 :=
  ⟨(((repetition_early_exit witnessRuns 5 3 (by decide) (by decide)
      (by decide)).1 (by decide)).1).trans (by decide), by decide⟩

example : sevtool_main envAllOk [] = ([.text notSupportedLine], 0) := by decide

example : sevtool_main envAllOk ["--sign_pek_csr", "x"] =
    ([.text "Error: Expecting exactly 2 args for pek_cert_import\n"], 0) := by decide

example : sevtool_main envAllOk ["--pek_cert_import", "f1", "f2"] =
    ([.statsReport (.error .divideByZero), .text successLine], 0) := by decide

example : sevtool_main envAllOk ["--repetitions", "abc", "--verbose"] =
    ([.text "Error: Invalid repetitions value 0. Using default.\n",
      .text notSupportedLine], 0) := by decide

theorem lastStatusD_concat (tr : List ExecRecord) (r : ExecRecord) (d : Int) :
    lastStatusD (tr ++ [r]) d = r.status := by
  simp [lastStatusD, List.getLast?_concat]

theorem afterExec_lastStatus (st : ToolState) (name : String) (status : Int) :
    (afterExec st name status).cmd_ret =
      lastStatusD (afterExec st name status).trace 0xFFFF := by
  simp [afterExec, lastStatusD_concat]

theorem dispatchCmd_stop_exit {env : Env} {st : ToolState} {c : Char} {a : String}
    {cs : List String} {b : ℕ} {out : List OutEvent} {e : Int}
    (h : dispatchCmd env st c a cs b = .stop out e) : e = 0 := by
  unfold dispatchCmd execRepeatable execSingle at h
  repeat' split at h
  all_goals cases h
  all_goals rfl

theorem dispatchCmd_cont_inv {env : Env} {st : ToolState} {c : Char} {a : String}
    {cs : List String} {b : ℕ} {st' : ToolState} {k : ℕ} {out : List OutEvent}
    (h : dispatchCmd env st c a cs b = .cont st' k out) :
    (∃ tr, st'.trace = st.trace ++ tr) ∧
    (st.cmd_ret = lastStatusD st.trace 0xFFFF →
      st'.cmd_ret = lastStatusD st'.trace 0xFFFF) := by
  unfold dispatchCmd execRepeatable execSingle at h
  repeat' split at h
  all_goals cases h
  all_goals refine ⟨?_, ?_⟩
  all_goals
    first
    | exact ⟨_, rfl⟩
    | exact ⟨[], by simp⟩
    | exact fun _ => afterExec_lastStatus _ _ _
    | exact fun hst => hst

theorem mainStep_stop_exit {env : Env} {st : ToolState} {t : String} {ts : List String}
    {out : List OutEvent} {e : Int} (h : mainStep env st t ts = .stop out e) : e = 0 := by
  unfold mainStep at h
  repeat' split at h
  all_goals
    first
    | exact dispatchCmd_stop_exit h
    | (cases h <;> rfl)

theorem mainStep_cont_inv {env : Env} {st : ToolState} {t : String} {ts : List String}
    {st' : ToolState} {k : ℕ} {out : List OutEvent}
    (h : mainStep env st t ts = .cont st' k out) :
    (∃ tr, st'.trace = st.trace ++ tr) ∧
    (st.cmd_ret = lastStatusD st.trace 0xFFFF →
      st'.cmd_ret = lastStatusD st'.trace 0xFFFF) := by
  unfold mainStep at h
  repeat' split at h
  all_goals
    first
    | exact dispatchCmd_cont_inv h
    | (cases h <;> exact ⟨⟨[], by simp⟩, fun hst => hst⟩)

theorem runLoopAux_exit_zero (env : Env) :
    ∀ (fuel : ℕ) (st : ToolState) (tokens : List String),
      (runLoopAux env fuel st tokens).2.2 = 0 := by
  intro fuel
  induction fuel with
  | zero =>
    intro st tokens
    cases tokens <;> rfl
  | succ f ih =>
    intro st tokens
    cases tokens with
    | nil => rfl
    | cons t ts =>
      simp only [runLoopAux]
      cases hms : mainStep env st t ts with
      | finish => rfl
      | stop out e => exact mainStep_stop_exit hms
      | cont st' k out => simpa using ih st' (ts.drop k)

theorem runLoopAux_trace_inv (env : Env) :
    ∀ (fuel : ℕ) (st : ToolState) (tokens : List String) (st' : ToolState),
      (runLoopAux env fuel st tokens).2.1 = some st' →
      (∃ tr, st'.trace = st.trace ++ tr) ∧
      (st.cmd_ret = lastStatusD st.trace 0xFFFF →
        st'.cmd_ret = lastStatusD st'.trace 0xFFFF) := by
  intro fuel
  induction fuel with
  | zero =>
    intro st tokens st' h
    cases tokens <;>
      (cases h; exact ⟨⟨[], by simp⟩, fun hst => hst⟩)
  | succ f ih =>
    intro st tokens st' h
    cases tokens with
    | nil => cases h; exact ⟨⟨[], by simp⟩, fun hst => hst⟩
    | cons t ts =>
      simp only [runLoopAux] at h
      cases hms : mainStep env st t ts with
      | finish => rw [hms] at h; cases h; exact ⟨⟨[], by simp⟩, fun hst => hst⟩
      | stop out e => rw [hms] at h; cases h
      | cont st1 k out =>
        rw [hms] at h
        simp only at h
        obtain ⟨⟨tr1, htr1⟩, hinv1⟩ := mainStep_cont_inv hms
        obtain ⟨⟨tr2, htr2⟩, hinv2⟩ := ih st1 (ts.drop k) st' h
        refine ⟨⟨tr1 ++ tr2, by rw [htr2, htr1, List.append_assoc]⟩, ?_⟩
        intro hst
        exact hinv2 (hinv1 hst)

theorem runLoopAux_fuel_eq (env : Env) :
    ∀ (f1 f2 : ℕ) (st : ToolState) (tokens : List String),
      tokens.length ≤ f1 → tokens.length ≤ f2 →
      runLoopAux env f1 st tokens = runLoopAux env f2 st tokens := by
  intro f1
  induction f1 with
  | zero =>
    intro f2 st tokens h1 _
    have : tokens = [] := List.length_eq_zero.1 (by omega)
    subst this
    cases f2 <;> rfl
  | succ f ih =>
    intro f2 st tokens h1 h2
    cases tokens with
    | nil => cases f2 <;> rfl
    | cons t ts =>
      obtain ⟨f2', rfl⟩ : ∃ f2', f2 = f2' + 1 := ⟨f2 - 1, by simp at h2; omega⟩
      simp only [runLoopAux]
      cases hms : mainStep env st t ts with
      | finish => rfl
      | stop out e => rfl
      | cont st' k out =>
        have hd : (ts.drop k).length ≤ f := by
          simp at h1 ⊢
          omega
        have hd2 : (ts.drop k).length ≤ f2' := by
          simp at h2 ⊢
          omega
        have heq := ih f2' st' (ts.drop k) hd hd2
        simp [heq]

theorem runLoop_cons (env : Env) (st : ToolState) (t : String) (ts : List String) :
    runLoop env st (t :: ts) =
      (match mainStep env st t ts with
      | .finish => ([], some st, 0)
      | .stop out e => (out, none, e)
      | .cont st' k out =>
        ((out ++ (runLoop env st' (ts.drop k)).1, (runLoop env st' (ts.drop k)).2))) := by
  unfold runLoop
  simp only [List.length_cons, runLoopAux]
  cases hms : mainStep env st t ts with
  | finish => rfl
  | stop out e => rfl
  | cont st' k out =>
    simp only
    rw [runLoopAux_fuel_eq env ts.length (ts.drop k).length st' (ts.drop k)
      (by simp) (le_refl _)]

/-- C3: after every repetition cycle the statistics reduction runs
unconditionally (the last printed event is always its report); on an empty
sample it fails with the division-by-zero case of mean/variance, on the
even-size sample of 2 it fails with the out-of-bounds quartile index
`n/4 - 1 = -1`; a cycle whose first run fails with no measurement reaches
the error branch, as does the full tool on `--pek_cert_import` (whose
lambda never appends a measurement, so even all-successful runs leave the
sample empty). -/
theorem stats_error_branch_reachable :
    (∀ (runs : ℕ → List ℚ × Int) (reps : Int),
      ((perform_repetitions_and_analysis runs reps).2).getLast? =
        some (.statsReport (computeStats (perform_repetitions_and_analysis runs reps).1.1))) ∧
    computeStats [] = .error .divideByZero ∧
    computeStats [(10 : ℚ), 20] = .error .indexOutOfBounds ∧
    (perform_repetitions_and_analysis (fun _ => ([], 5)) 3).1.1 = [] ∧
    (perform_repetitions_and_analysis (fun _ => ([], 5)) 3).2 =
      [.text (unsuccessfulLine 5), .statsReport (.error .divideByZero)] ∧
    sevtool_main envAllOk ["--pek_cert_import", "f1", "f2"] =
      ([.statsReport (.error .divideByZero), .text successLine], 0) := by
  refine ⟨?_, by decide, by decide, by decide, by decide, by decide⟩
  intro runs reps
  unfold perform_repetitions_and_analysis
  exact List.getLast?_concat _

/-- C7 (code slip in the source): the arity of the remaining positional
stream is checked for exact equality before any decode or execution and a
mismatch aborts immediately with an "Expecting exactly K args" diagnostic —
but for `sign_pek_csr` the diagnostic (main.cpp line 381) names
`pek_cert_import`, not `sign_pek_csr` as the spec requires.  The runs below
show the abort output verbatim: no operation executed (no exec/stats events
precede the message) and the message for `sign_pek_csr` misnames the
operation, while e.g. `generate_launch_blob` names itself. -/
theorem arity_check_message_misnamed :
    sevtool_main envAllOk ["--sign_pek_csr", "pek_csr.cert"] =
      ([.text "Error: Expecting exactly 2 args for pek_cert_import\n"], 0) ∧
    sevtool_main envAllOk ["--sign_pek_csr", "a", "b", "c"] =
      ([.text "Error: Expecting exactly 2 args for pek_cert_import\n"], 0) ∧
    sevtool_main envAllOk ["--pek_cert_import", "f1"] =
      ([.text "Error: Expecting exactly 2 args for pek_cert_import\n"], 0) ∧
    sevtool_main envAllOk ["--generate_launch_blob", "a", "b"] =
      ([.text "Error: Expecting exactly 1 arg for generate_launch_blob\n"], 0) ∧
    sevtool_main envAllOk ["--set_externally_owned", "a", "b"] =
      ([.text "Error: Expecting exactly 1 arg for set_externally_owned\n"], 0) ∧
    sevtool_main envAllOk ["--calc_measurement", "a", "b", "c"] =
      ([.text "Error: Expecting exactly 8 args for calc_measurement\n"], 0) := by
  refine ⟨by decide, by decide, by decide, by decide, ?_, by decide⟩
  decide

/-- C9: the process returns exit code 0 on every path — `return 0` at the
end and every early `return false` (which converts to 0) — so failures are
visible only in the printed output; shown generally and on an arity error,
an unrecognized flag, and a failing command. -/
theorem process_exit_always_zero :
    (∀ (env : Env) (args : List String), (sevtool_main env args).2 = 0) ∧
    (sevtool_main envAllOk ["--sign_pek_csr", "x"]).2 = 0 ∧
    (sevtool_main envAllOk ["--bogus_flag"]).2 = 0 ∧
    (sevtool_main envFail7 ["--pek_gen"]).2 = 0 ∧
    sevtool_main envFail7 ["--pek_gen"] =
      ([.text (unsuccessfulLine 7), .statsReport (.error .divideByZero),
        .text (unsuccessfulLine 7)], 0) := by
  refine ⟨?_, by decide, by decide, by decide, by decide⟩
  intro env args
  unfold sevtool_main runLoop
  have he := runLoopAux_exit_zero env args.length initState args
  cases hr : runLoopAux env args.length initState args with
  | mk out rest =>
    obtain ⟨ost, e⟩ := rest
    cases ost with
    | none =>
      rw [hr] at he
      simpa using he
    | some st => rfl

theorem string_mk_length (l : List Char) : (String.mk l).length = l.length := rfl

theorem hex02_length (v : Int) : 2 ≤ (hex02 v).length := by
  have hmk : hex02 v = String.mk
      (if (natHex (asUInt32 v)).length < 2 then
        List.replicate (2 - (natHex (asUInt32 v)).length) '0' ++ natHex (asUInt32 v)
      else natHex (asUInt32 v)) := rfl
  rw [hmk, string_mk_length]
  by_cases h : (natHex (asUInt32 v)).length < 2
  · rw [if_pos h]
    simp
    omega
  · rw [if_neg h]
    omega

/-- C6: the final classification maps the surviving status to exactly one
line — 0 to "Command Successful", 0xFFFF to the not-supported line, and any
other value to "Command Unsuccessful: 0x" followed by a (two-digit-or-more)
lowercase hex rendering; whenever the parse loop completes, `main` appends
exactly this one line to whatever was printed, regardless of which
operations ran; and if no operation-selecting flag was ever matched the
surviving status is the initial 0xFFFF. -/
theorem final_status_classification :
    classify 0 = "\nCommand Successful\n" ∧
    classify 0xFFFF = "\nCommand not supported/recognized. Possibly bad formatting\n" ∧
    (∀ v : Int, v ≠ 0 → v ≠ 0xFFFF →
      classify v = "\nCommand Unsuccessful: 0x" ++ hex02 v ++ "\n" ∧
      2 ≤ (hex02 v).length) ∧
    (∀ (env : Env) (args : List String) (out : List OutEvent) (st : ToolState) (e : Int),
      runLoop env initState args = (out, some st, e) →
      sevtool_main env args = (out ++ [.text (classify st.cmd_ret)], 0)) ∧
    (∀ (env : Env) (args : List String) (out : List OutEvent) (st : ToolState) (e : Int),
      runLoop env initState args = (out, some st, e) → st.trace = [] →
      st.cmd_ret = 0xFFFF) := by
  refine ⟨by decide, by decide, ?_, ?_, ?_⟩
  · intro v h0 hf
    refine ⟨?_, hex02_length v⟩
    unfold classify unsuccessfulLine
    rw [if_neg h0, if_neg hf]
  · intro env args out st e h
    unfold sevtool_main
    rw [h]
  · intro env args out st e h htr
    have hinv := (runLoopAux_trace_inv env args.length initState args st
      (by unfold runLoop at h; rw [h])).2 (by decide)
    rw [hinv, htr]
    decide

theorem final_status_classification_witness :
    ((26 : Int) ≠ 0 ∧ (26 : Int) ≠ 0xFFFF ∧
      classify 26 = "\nCommand Unsuccessful: 0x" ++ hex02 26 ++ "\n" ∧
      hex02 26 = "1a") ∧
    runLoop envAllOk initState ["--verbose"] = ([], some verboseState, 0) ∧
    sevtool_main envAllOk ["--verbose"] = ([.text (classify verboseState.cmd_ret)], 0) ∧
    verboseState.trace = [] ∧ verboseState.cmd_ret = 0xFFFF :=
  ⟨⟨by decide, by decide,
    (final_status_classification.2.2.1 26 (by decide) (by decide)).1, by decide⟩,
   by decide,
   final_status_classification.2.2.2.1 envAllOk ["--verbose"] [] verboseState 0 (by decide),
   by decide,
   final_status_classification.2.2.2.2 envAllOk ["--verbose"] [] verboseState 0
     (by decide) (by decide)⟩

/-- C8: a non-positive or unparseable `--repetitions` value produces a
warning and resets the effective count to the default 1, and processing of
the remaining tokens continues; a positive value is stored as given.  In
either case the loop proceeds with the rest of the tokens rather than
aborting. -/
theorem repetitions_flag_resilient (env : Env) (st : ToolState) (v : String)
    (ts : List String) :
    runLoop env st ("--repetitions" :: v :: ts) =
      (if atoiModel v ≤ 0 then
        (OutEvent.text ("Error: Invalid repetitions value " ++ toString (atoiModel v) ++
            ". Using default.\n") :: (runLoop env { st with repetitions := 1 } ts).1,
          (runLoop env { st with repetitions := 1 } ts).2)
      else runLoop env { st with repetitions := atoiModel v } ts) := by
  rw [runLoop_cons]
  have hms : mainStep env st "--repetitions" (v :: ts) =
      (if atoiModel v ≤ 0 then
        StepResult.cont { st with repetitions := 1 } 1
          [.text ("Error: Invalid repetitions value " ++ toString (atoiModel v) ++
            ". Using default.\n")]
      else StepResult.cont { st with repetitions := atoiModel v } 1 []) := rfl
  rw [hms]
  by_cases hv : atoiModel v ≤ 0
  · rw [if_pos hv, if_pos hv]
    rfl
  · rw [if_neg hv, if_neg hv]
    rfl

theorem trace_head_after (st1 : ToolState) (r : ExecRecord) (tr : List ExecRecord)
    (h : st1.trace = [r] ++ tr) : st1.trace.head? = some r := by
  rw [h]; rfl

/-- C10: tokens are processed in one strict left-to-right pass and each
operation-selecting flag executes immediately: an operation flag placed
before `--repetitions 3` runs with the previously effective count (the
default 1) while one placed after it runs with 3; two operation flags in
sequence both execute, in argv order, each seeing the state current at its
position; and whenever the loop completes, the surviving `cmd_ret` — which
the final classification prints — is exactly the status of the last
operation executed (0xFFFF if none was). -/
theorem strict_left_to_right (env : Env) (ts : List String) :
    (∀ st : ToolState,
      (runLoop env initState ("--pek_gen" :: "--repetitions" :: "3" :: ts)).2.1 =
        some st →
      st.trace.head? = some ⟨"pek_gen", "./", 0, 1, (repRun (runsOf env 0) 1).2⟩) ∧
    (∀ st : ToolState,
      (runLoop env initState ("--repetitions" :: "3" :: "--pek_gen" :: ts)).2.1 =
        some st →
      st.trace.head? = some ⟨"pek_gen", "./", 0, 3, (repRun (runsOf env 0) 3).2⟩) ∧
    (∀ st : ToolState,
      (runLoop env initState ("--pek_gen" :: "--platform_status" :: ts)).2.1 = some st →
      st.trace.take 2 = [⟨"pek_gen", "./", 0, 1, (repRun (runsOf env 0) 1).2⟩,
        ⟨"platform_status", "./", 0, 1, (repRun (runsOf env 1) 1).2⟩]) ∧
    (∀ (args : List String) (out : List OutEvent) (st : ToolState) (e : Int),
      runLoop env initState args = (out, some st, e) →
      st.cmd_ret = lastStatusD st.trace 0xFFFF) := by
  refine ⟨?_, ?_, ?_, ?_⟩
  · intro st h
    rw [runLoop_cons] at h
    rw [show mainStep env initState "--pek_gen" ("--repetitions" :: "3" :: ts) =
      execRepeatable initState "pek_gen" (runsOf env 0) 0 from rfl] at h
    simp only [execRepeatable, List.drop_zero] at h
    unfold runLoop at h
    obtain ⟨⟨tr, htr⟩, -⟩ := runLoopAux_trace_inv env _ _ _ st h
    refine trace_head_after st _ tr ?_
    rw [htr]
    rfl
  · intro st h
    rw [runLoop_cons] at h
    rw [show mainStep env initState "--repetitions" ("3" :: "--pek_gen" :: ts) =
      StepResult.cont stRep3 1 [] from rfl] at h
    simp only [List.drop_succ_cons, List.drop_zero] at h
    rw [runLoop_cons] at h
    rw [show mainStep env stRep3 "--pek_gen" ts =
      execRepeatable stRep3 "pek_gen" (runsOf env 0) 0 from rfl] at h
    simp only [execRepeatable, List.drop_zero] at h
    unfold runLoop at h
    obtain ⟨⟨tr, htr⟩, -⟩ := runLoopAux_trace_inv env _ _ _ st h
    refine trace_head_after st _ tr ?_
    rw [htr]
    rfl
  · intro st h
    rw [runLoop_cons] at h
    rw [show mainStep env initState "--pek_gen" ("--platform_status" :: ts) =
      execRepeatable initState "pek_gen" (runsOf env 0) 0 from rfl] at h
    simp only [execRepeatable, List.drop_zero] at h
    rw [runLoop_cons] at h
    rw [show mainStep env
        (afterExec initState "pek_gen"
          (perform_repetitions_and_analysis (runsOf env 0) initState.repetitions).1.2)
        "--platform_status" ts =
      execRepeatable
        (afterExec initState "pek_gen"
          (perform_repetitions_and_analysis (runsOf env 0) initState.repetitions).1.2)
        "platform_status"
        (runsOf env
          (afterExec initState "pek_gen"
            (perform_repetitions_and_analysis (runsOf env 0) initState.repetitions).1.2).execCount)
        0 from rfl] at h
    simp only [execRepeatable, List.drop_zero] at h
    unfold runLoop at h
    obtain ⟨⟨tr, htr⟩, -⟩ := runLoopAux_trace_inv env _ _ _ st h
    rw [htr]
    rfl
  · intro args out st e h
    exact (runLoopAux_trace_inv env args.length initState args st
      (by unfold runLoop at h; rw [h])).2 (by decide)

theorem strict_left_to_right_witness :
    (runLoop envAllOk initState ["--pek_gen", "--repetitions", "3"]).2.1 =
      some statePekGenReps3 ∧
    statePekGenReps3.trace.head? =
      some ⟨"pek_gen", "./", 0, 1, (repRun (runsOf envAllOk 0) 1).2⟩ ∧
    statePekGenReps3.cmd_ret = lastStatusD statePekGenReps3.trace 0xFFFF :=
  ⟨by decide,
   (strict_left_to_right envAllOk []).1 statePekGenReps3 (by decide),
   (strict_left_to_right envAllOk []).2.2.2 ["--pek_gen", "--repetitions", "3"]
     [.statsReport (.error .divideByZero)] statePekGenReps3 0 (by decide)⟩
